import Mathlib

/-!
Verification development for the Onebox email aggregator
(`src/services/IMAPService.ts`, `src/services/ElasticsearchService.ts`,
`src/services/AIService.ts`, `src/services/NotificationService.ts`).

The TypeScript services are shallowly embedded as executable Lean
functions.  The Elasticsearch index is modelled as an association list
from a system-generated numeric id to an email document; asynchronous
calls that may fail upstream (the AI provider, the RAG reply generator,
Slack, the webhook endpoint) take their upstream outcome as an explicit
`Except` argument.  Dates are modelled as integers counting days, so the
source statement `cutoffDate.setDate(cutoffDate.getDate() - 730)` becomes the
integer bound `now - 730`.
-/

namespace Onebox

/-- Email categories, from `EmailCategory` in `src/types/index.ts`. -/
inductive EmailCategory
  | interested
  | meeting_booked
  | not_interested
  | spam
  | out_of_office
deriving DecidableEq, Repr

/-- AI classification result, from `AICategory` in `src/types/index.ts`.
Confidence is a rational in [0,1]. -/
structure AICategory where
  category : EmailCategory
  confidence : ℚ
  reasoning : String
deriving DecidableEq, Repr

/-- Upstream failure modes of a classification provider call: the call may
reject, time out, or deliver a body `JSON.parse` cannot read.  All of them
surface as a thrown error inside the try block of `AIService.categorizeEmail`. -/
inductive ProviderError
  | apiError
  | timeout
  | malformedResponse
deriving DecidableEq, Repr

/-- Upstream failure of `RAGService.generateContextualReply`. -/
inductive RagError
  | ragFailure
deriving DecidableEq, Repr

/-- The constant fallback returned by `AIService.categorizeEmail` when the
provider call throws (`src/services/AIService.ts`, catch block):
category `spam`, confidence `0.5`. -/
def fallbackCategory : AICategory :=
  { category := EmailCategory.spam
    confidence := 1/2
    reasoning := "Error in AI categorization, defaulting to spam" }

/-- Embedding of `AIService.categorizeEmail` (`src/services/AIService.ts`):
the outcome of the provider call is the argument; on success its result is
returned unchanged, and the catch block turns every error into the
constant `fallbackCategory`.  The return type has no error channel: the
function never raises to its caller. -/
def categorizeEmail (providerResult : Except ProviderError AICategory) : AICategory :=
  match providerResult with
  | Except.ok r => r
  | Except.error _ => fallbackCategory

/-- An email document as stored in the search index, from `Email` in
`src/types/index.ts`.  The TypeScript `from` field is called `fromAddr`
because `from` is a Lean keyword; dates are integer day counts. -/
structure Email where
  accountId : String
  messageId : String
  subject : String
  fromAddr : String
  toAddrs : List String
  cc : Option (List String)
  bcc : Option (List String)
  date : Int
  body : String
  htmlBody : Option String
  folder : String
  isRead : Bool
  isFlagged : Bool
  category : Option EmailCategory
  aiCategory : Option EmailCategory
  aiConfidence : Option ℚ
  suggestedReply : Option String
  createdAt : Int
  updatedAt : Int
deriving DecidableEq, Repr

/-- The Elasticsearch email index: system-generated numeric ids paired
with documents, in insertion order. -/
abbrev Store := List (Nat × Email)

/-- Embedding of `ElasticsearchService.findEmailByMessageId`
(`src/services/ElasticsearchService.ts`, lines 134-158): a term query on
`messageId` alone — the account id is not part of the query — returning
the first hit or null. -/
def findEmailByMessageId (store : Store) (messageId : String) : Option Email :=
  (store.map Prod.snd).find? (fun e => e.messageId == messageId)

/-- Embedding of `ElasticsearchService.indexEmail`: a new document gets a
system-generated id (modelled as the current document count) and is
appended to the index. -/
def indexEmail (store : Store) (email : Email) : Store :=
  store ++ [(store.length, email)]

/-- A parsed message as produced by `simpleParser` and consumed by
`IMAPService.processEmail`; optional address fields mirror
`parsed.to?.text` access in the source. -/
structure ParsedEmail where
  messageId : String
  subject : String
  fromAddr : String
  toAddrs : Option String
  cc : Option String
  bcc : Option String
  date : Int
  body : String
  htmlBody : Option String
deriving DecidableEq, Repr

/-- Observable side effects of one `processEmail` call, in execution
order: the dedup lookup, the enrichment (classification) call, the RAG
reply request, the index upsert, and the two notification dispatch
attempts. -/
inductive Effect
  | lookupByMessageId (messageId : String)
  | classify (messageId : String)
  | generateReply (messageId : String)
  | indexRecord (messageId : String)
  | slackNotify (messageId : String)
  | webhookNotify (messageId : String)
deriving DecidableEq, Repr

/-- Embedding of `IMAPService.processEmail` (`src/services/IMAPService.ts`,
lines 417-506).  Mirrors the source statement for statement:

1. dedup lookup by message id; if a hit exists, return ("Email already
   exists");
2. date filter: skip when `emailDate < cutoffDate` where the cutoff is
   the hardcoded `730` days before now — the `days` parameter of the
   function is not consulted by this filter (nor anywhere else in the
   body), exactly as in the source;
3. build `emailData` from the parsed message;
4. AI categorization via `categorizeEmail` (never fails);
5. only for category `interested`: request a suggested reply, attaching
   it when the RAG call succeeds and swallowing the error otherwise;
6. index the record;
7. only for category `interested`: one Slack dispatch attempt followed by
   one webhook dispatch attempt.

The returned trace lists the effects in the order the source awaits them. -/
def suggestedReplyFor (category : EmailCategory)
    (ragResult : Except RagError String) : Option String :=
  if category = EmailCategory.interested then
    match ragResult with
    | Except.ok r => some r
    | Except.error _ => none
  else none

/-- The `emailData` object `processEmail` builds and indexes, field by
field as in `src/services/IMAPService.ts` lines 439-459 (steps 3-5 of
the pipeline). -/
def ingestedRecord (accountId : String) (parsedEmail : ParsedEmail) (now : Int)
    (aiCategory : AICategory) (suggestedReply : Option String) : Email :=
  { accountId := accountId
    messageId := parsedEmail.messageId
    subject := parsedEmail.subject
    fromAddr := parsedEmail.fromAddr
    toAddrs := match parsedEmail.toAddrs with | some t => [t] | none => []
    cc := parsedEmail.cc.map (fun t => [t])
    bcc := parsedEmail.bcc.map (fun t => [t])
    date := parsedEmail.date
    body := parsedEmail.body
    htmlBody := parsedEmail.htmlBody
    folder := "INBOX"
    isRead := false
    isFlagged := false
    category := some aiCategory.category
    aiCategory := some aiCategory.category
    aiConfidence := some aiCategory.confidence
    suggestedReply := suggestedReply
    createdAt := now
    updatedAt := now }

/-- The effect order of a non-skipped `processEmail` call: dedup lookup,
classification, then (only for `interested`) the reply request, then the
index upsert, then (only for `interested`) one Slack and one webhook
dispatch attempt. -/
def ingestTrace (messageId : String) (category : EmailCategory) : List Effect :=
  Effect.lookupByMessageId messageId ::
    Effect.classify messageId ::
      ((if category = EmailCategory.interested then
          [Effect.generateReply messageId]
        else []) ++
        Effect.indexRecord messageId ::
          (if category = EmailCategory.interested then
            [Effect.slackNotify messageId, Effect.webhookNotify messageId]
          else []))

def processEmail (accountId : String) (parsedEmail : ParsedEmail) (days : Nat)
    (now : Int)
    (providerResult : Except ProviderError AICategory)
    (ragResult : Except RagError String)
    (store : Store) : Store × List Effect :=
  match findEmailByMessageId store parsedEmail.messageId with
  | some _ => (store, [Effect.lookupByMessageId parsedEmail.messageId])
  | none =>
    if parsedEmail.date < now - 730 then
      (store, [Effect.lookupByMessageId parsedEmail.messageId])
    else
      let aiCategory := categorizeEmail providerResult
      (indexEmail store
        (ingestedRecord accountId parsedEmail now aiCategory
          (suggestedReplyFor aiCategory.category ragResult)),
        ingestTrace parsedEmail.messageId aiCategory.category)

/-- One invocation of the ingestion pipeline for one candidate message:
the account, the parsed message, the caller-supplied lookback `days`, the
wall clock, and the outcomes of the two external enrichment calls. -/
structure IngestJob where
  accountId : String
  parsedEmail : ParsedEmail
  days : Nat
  now : Int
  providerResult : Except ProviderError AICategory
  ragResult : Except RagError String

/-- Sequential composition of `processEmail` calls over any number of
ingestion runs (their candidate sets may overlap arbitrarily). -/
def runIngestion (jobs : List IngestJob) (store : Store) : Store :=
  jobs.foldl
    (fun st j =>
      (processEmail j.accountId j.parsedEmail j.days j.now j.providerResult j.ragResult st).1)
    store

/-- Number of indexed documents carrying a given message id. -/
def msgCount (store : Store) (messageId : String) : Nat :=
  ((store.map Prod.snd).filter (fun e => e.messageId == messageId)).length

/-- Number of indexed documents carrying a given natural key
(account id, message id). -/
def keyCount (store : Store) (accountId messageId : String) : Nat :=
  ((store.map Prod.snd).filter
    (fun e => e.accountId == accountId && e.messageId == messageId)).length

/-- System-wide uniqueness of message ids in the index. -/
def UniqueByMessageId (store : Store) : Prop :=
  ∀ m, msgCount store m ≤ 1

/-- Result of one sync run: the index after the run together with the
`processedCount` the source logs when the fetch stream ends. -/
structure SyncResult where
  store : Store
  processedCount : Nat
deriving Repr

/-- Embedding of the batch part of `IMAPService.forceEmailSync`
(`src/services/IMAPService.ts`, lines 579-648; `fetchNewEmails`, lines
343-408, is the same logic).  The search returns the candidate list
`results`; the source then takes `results.slice(0, 10)` — only the first
ten candidates, with no loop over further chunks — and runs
`processEmail` on each of them sequentially, incrementing
`processedCount` once per message.  The outcomes of the per-message
external calls are supplied as functions of the message id. -/
def forceEmailSync (accountId : String) (results : List ParsedEmail) (days : Nat)
    (now : Int)
    (providerResult : String → Except ProviderError AICategory)
    (ragResult : String → Except RagError String)
    (store : Store) : SyncResult :=
  let emailsToProcess := results.take 10
  { store :=
      emailsToProcess.foldl
        (fun st p =>
          (processEmail accountId p days now (providerResult p.messageId)
            (ragResult p.messageId) st).1)
        store
    processedCount := emailsToProcess.length }

/-- Per-account view of the connection supervisor.  The fields `connected`
and `isIdle` embed the only per-account state `IMAPService` keeps
(`src/services/IMAPService.ts`, lines 12-14: the `connections`,
`idleTimeouts` and `isIdle` maps — the class holds no in-flight marker
and no pending/"dirty" flag).  `inFlightRuns` counts fetch runs started
and not yet completed, and `totalRuns` counts fetch runs ever started;
both are observational instrumentation of the run lifecycle, not state
the code reads. -/
structure AccountSyncState where
  connected : Bool
  isIdle : Bool
  inFlightRuns : Nat
  totalRuns : Nat
deriving DecidableEq, Repr

/-- Embedding of `IMAPService.handleNewMail` (`src/services/IMAPService.ts`,
lines 295-314): on a new-mail signal the handler reads only the
`connections` map; when a connection exists it ends IDLE mode and starts
`fetchNewEmails` for the account immediately and unconditionally — no
field of the service records whether a prior run is still in flight, so
the start does not depend on `inFlightRuns`. -/
def handleNewMail (s : AccountSyncState) : AccountSyncState :=
  if s.connected then
    { s with
        isIdle := false
        inFlightRuns := s.inFlightRuns + 1
        totalRuns := s.totalRuns + 1 }
  else s

/-- Completion of one fetch run (the promise returned by
`fetchNewEmails` resolving). -/
def completeRun (s : AccountSyncState) : AccountSyncState :=
  { s with inFlightRuns := s.inFlightRuns - 1 }

/-- Counters describing what one notification call did: delivery attempts
made against the external service, errors written to the log, and
warnings written to the log. -/
structure NotifyLog where
  attempts : Nat
  errorsLogged : Nat
  warningsLogged : Nat
deriving DecidableEq, Repr

/-- Upstream failure of a Slack or webhook delivery attempt (rejected
promise, network error, timeout). -/
inductive DeliveryError
  | networkError
  | timeout
deriving DecidableEq, Repr

/-- Embedding of `NotificationService.sendSlackNotification`
(`src/services/NotificationService.ts`).  `slackToken` is the
`SLACK_BOT_TOKEN` configuration; `delivery` is the outcome of
`slackClient.chat.postMessage`, with `Except.ok b` meaning the call
returned with `result.ok = b`.  The result type still carries the error
channel so that "never raises" is a statement, not a typing artifact:
the catch block of the source maps every thrown error to a logged,
successfully-returning call. -/
def sendSlackNotification (slackToken : Option String)
    (delivery : Except DeliveryError Bool) : Except DeliveryError NotifyLog :=
  match slackToken with
  | none =>
    Except.ok { attempts := 0, errorsLogged := 0, warningsLogged := 1 }
  | some _ =>
    match delivery with
    | Except.ok true =>
      Except.ok { attempts := 1, errorsLogged := 0, warningsLogged := 0 }
    | Except.ok false =>
      Except.ok { attempts := 1, errorsLogged := 1, warningsLogged := 0 }
    | Except.error _ =>
      Except.ok { attempts := 1, errorsLogged := 1, warningsLogged := 0 }

/-- Character-list prefix test (structural, so that it reduces inside
proofs). -/
def prefixOfChars : List Char → List Char → Bool
  | [], _ => true
  | _ :: _, [] => false
  | c :: cs, d :: ds => c == d && prefixOfChars cs ds

/-- Character-list substring test. -/
def hasSubstrAux (pat : List Char) : List Char → Bool
  | [] => prefixOfChars pat []
  | c :: cs => prefixOfChars pat (c :: cs) || hasSubstrAux pat cs

/-- JavaScript-style substring test, used for the guard
`webhookUrl.includes("your-unique-url")` in the source. -/
def hasSubstr (s pat : String) : Bool :=
  hasSubstrAux pat.data s.data

/-- The webhook URL as the `NotificationService` constructor computes it:
the `WEBHOOK_URL` environment value, or the placeholder default. -/
def webhookUrlOfEnv (env : Option String) : String :=
  env.getD "https://webhook.site/your-unique-url"

/-- Embedding of `NotificationService.sendWebhook`
(`src/services/NotificationService.ts`).  `delivery` is the outcome of
the `axios.post`, with `Except.ok status` carrying the HTTP status.
An unconfigured or placeholder URL short-circuits into a no-op; a thrown
delivery error is caught and logged; a non-2xx status is only logged.
No branch returns an error to the caller. -/
def sendWebhook (webhookUrl : String)
    (delivery : Except DeliveryError Nat) : Except DeliveryError NotifyLog :=
  if webhookUrl.isEmpty || hasSubstr webhookUrl "your-unique-url" then
    Except.ok { attempts := 0, errorsLogged := 0, warningsLogged := 1 }
  else
    match delivery with
    | Except.ok status =>
      if 200 ≤ status ∧ status < 300 then
        Except.ok { attempts := 1, errorsLogged := 0, warningsLogged := 0 }
      else
        Except.ok { attempts := 1, errorsLogged := 1, warningsLogged := 0 }
    | Except.error _ =>
      Except.ok { attempts := 1, errorsLogged := 1, warningsLogged := 0 }

/-- Search filters, from `EmailSearchFilters` in `src/types/index.ts`;
dates are integer day counts. -/
structure EmailSearchFilters where
  accountId : Option String
  folder : Option String
  category : Option EmailCategory
  dateFrom : Option Int
  dateTo : Option Int
  isRead : Option Bool
  query : Option String
  limit : Nat
  offset : Nat
deriving DecidableEq, Repr

/-- A clause of the Elasticsearch bool query built by `searchEmails`;
match clauses carry the boost the source attaches. -/
inductive QueryClause
  | termAccountId (v : String)
  | termFolder (v : String)
  | termCategory (v : EmailCategory)
  | rangeDate (gte : Option Int) (lte : Option Int)
  | termIsRead (v : Bool)
  | matchSubject (q : String) (boost : ℚ)
  | matchBody (q : String)
  | matchFrom (q : String) (boost : ℚ)
  | matchTo (q : String)
deriving DecidableEq, Repr

/-- A sort specification a search request can carry.
`byRelevanceWithRecencyBoost` exists so the order the spec prescribes can
be stated; the source only ever emits `byDateDesc`. -/
inductive SortOrder
  | byDateDesc
  | byRelevanceWithRecencyBoost
deriving DecidableEq, Repr

/-- The search request body `searchEmails` sends to Elasticsearch. -/
structure SearchBody where
  must : List QueryClause
  should : List QueryClause
  minimumShouldMatch : Nat
  sort : List SortOrder
  fromOffset : Nat
  size : Nat
deriving DecidableEq, Repr

/-- JavaScript truthiness for an optional string (an absent value and the
empty string are both falsy, as in `if (query)`). -/
def strTruthy (s : Option String) : Bool :=
  match s with
  | some v => !v.isEmpty
  | none => false

/-- Embedding of the request construction in
`ElasticsearchService.searchEmails`
(`src/services/ElasticsearchService.ts`, lines 27-109): term filters for
account, folder, category, date range and read state go into `must`; a
truthy free-text query adds four boosted match clauses to `should` with
`minimum_should_match` 1; the sort is the fixed `[{ date: desc }]` and
paging is `from := offset`, `size := limit`. -/
def buildSearchBody (filters : EmailSearchFilters) : SearchBody :=
  let mustQueries :=
    (match filters.accountId with
     | some a => if a.isEmpty then [] else [QueryClause.termAccountId a]
     | none => []) ++
    (match filters.folder with
     | some f => if f.isEmpty then [] else [QueryClause.termFolder f]
     | none => []) ++
    (match filters.category with
     | some c => [QueryClause.termCategory c]
     | none => []) ++
    (if filters.dateFrom.isSome || filters.dateTo.isSome then
       [QueryClause.rangeDate filters.dateFrom filters.dateTo]
     else []) ++
    (match filters.isRead with
     | some b => [QueryClause.termIsRead b]
     | none => [])
  let shouldQueries :=
    match filters.query with
    | some q =>
      if q.isEmpty then []
      else
        [QueryClause.matchSubject q 2, QueryClause.matchBody q,
         QueryClause.matchFrom q (3/2), QueryClause.matchTo q]
    | none => []
  { must := mustQueries
    should := shouldQueries
    minimumShouldMatch := if shouldQueries.length > 0 then 1 else 0
    sort := [SortOrder.byDateDesc]
    fromOffset := filters.offset
    size := filters.limit }

/-- The sort order section 4.4 of the specification prescribes, written
from the words of the spec for comparison with `buildSearchBody`: newest-first
by message timestamp, except that a full-text relevance query switches to
relevance ranking with a recency boost. -/
def specSortOrder (filters : EmailSearchFilters) : List SortOrder :=
  if strTruthy filters.query then [SortOrder.byRelevanceWithRecencyBoost]
  else [SortOrder.byDateDesc]

/-- A partial email document, from the `Partial<Email>` parameter of
`ElasticsearchService.updateEmail`: each field is either absent (not part
of the update) or present with its new value.  `updatedAt` is absent
because the source always overwrites it with the current time after
spreading the updates given by the caller. -/
structure EmailUpdate where
  accountId : Option String
  messageId : Option String
  subject : Option String
  fromAddr : Option String
  toAddrs : Option (List String)
  cc : Option (Option (List String))
  bcc : Option (Option (List String))
  date : Option Int
  body : Option String
  htmlBody : Option (Option String)
  folder : Option String
  isRead : Option Bool
  isFlagged : Option Bool
  category : Option (Option EmailCategory)
  aiCategory : Option (Option EmailCategory)
  aiConfidence : Option (Option ℚ)
  suggestedReply : Option (Option String)
  createdAt : Option Int
deriving DecidableEq, Repr

/-- An update document naming no field at all. -/
def EmailUpdate.empty : EmailUpdate :=
  { accountId := none, messageId := none, subject := none, fromAddr := none
    toAddrs := none, cc := none, bcc := none, date := none, body := none
    htmlBody := none, folder := none, isRead := none, isFlagged := none
    category := none, aiCategory := none, aiConfidence := none
    suggestedReply := none, createdAt := none }

/-- Elasticsearch partial-document merge semantics for the `doc` body
`updateEmail` sends: every field named in the update takes its new value,
every other field keeps its stored value, and `updatedAt` — which the
source always includes in the doc — becomes the current time. -/
def applyUpdate (e : Email) (u : EmailUpdate) (now : Int) : Email :=
  { accountId := u.accountId.getD e.accountId
    messageId := u.messageId.getD e.messageId
    subject := u.subject.getD e.subject
    fromAddr := u.fromAddr.getD e.fromAddr
    toAddrs := u.toAddrs.getD e.toAddrs
    cc := u.cc.getD e.cc
    bcc := u.bcc.getD e.bcc
    date := u.date.getD e.date
    body := u.body.getD e.body
    htmlBody := u.htmlBody.getD e.htmlBody
    folder := u.folder.getD e.folder
    isRead := u.isRead.getD e.isRead
    isFlagged := u.isFlagged.getD e.isFlagged
    category := u.category.getD e.category
    aiCategory := u.aiCategory.getD e.aiCategory
    aiConfidence := u.aiConfidence.getD e.aiConfidence
    suggestedReply := u.suggestedReply.getD e.suggestedReply
    createdAt := u.createdAt.getD e.createdAt
    updatedAt := now }

/-- Embedding of `ElasticsearchService.updateEmail`
(`src/services/ElasticsearchService.ts`, lines 185-203): a partial-doc
update of the document with the given id; other documents are untouched. -/
def updateEmail (store : Store) (id : Nat) (u : EmailUpdate) (now : Int) : Store :=
  store.map (fun p => if p.1 = id then (p.1, applyUpdate p.2 u now) else p)

/-- Embedding of `ElasticsearchService.findEmailById`: point lookup by
system id, null when absent. -/
def findEmailById (store : Store) (id : Nat) : Option Email :=
  (store.find? (fun p => p.1 == id)).map Prod.snd

/-! Helper lemmas about the embedded operations. -/

theorem processEmail_of_found {store : Store} {parsedEmail : ParsedEmail} {e : Email}
    (accountId : String) (days : Nat) (now : Int)
    (providerResult : Except ProviderError AICategory) (ragResult : Except RagError String)
    (hf : findEmailByMessageId store parsedEmail.messageId = some e) :
    processEmail accountId parsedEmail days now providerResult ragResult store =
      (store, [Effect.lookupByMessageId parsedEmail.messageId]) := by
  unfold processEmail
  rw [hf]

theorem processEmail_of_old {store : Store} {parsedEmail : ParsedEmail} {now : Int}
    (accountId : String) (days : Nat)
    (providerResult : Except ProviderError AICategory) (ragResult : Except RagError String)
    (hf : findEmailByMessageId store parsedEmail.messageId = none)
    (hd : parsedEmail.date < now - 730) :
    processEmail accountId parsedEmail days now providerResult ragResult store =
      (store, [Effect.lookupByMessageId parsedEmail.messageId]) := by
  unfold processEmail
  rw [hf]
  simp [hd]

theorem processEmail_of_new {store : Store} {parsedEmail : ParsedEmail} {now : Int}
    (accountId : String) (days : Nat)
    (providerResult : Except ProviderError AICategory) (ragResult : Except RagError String)
    (hf : findEmailByMessageId store parsedEmail.messageId = none)
    (hd : ¬ parsedEmail.date < now - 730) :
    processEmail accountId parsedEmail days now providerResult ragResult store =
      (store ++
        [(store.length,
          ingestedRecord accountId parsedEmail now (categorizeEmail providerResult)
            (suggestedReplyFor (categorizeEmail providerResult).category ragResult))],
        ingestTrace parsedEmail.messageId (categorizeEmail providerResult).category) := by
  unfold processEmail
  rw [hf]
  simp [hd, indexEmail]

theorem msgCount_append (store : Store) (x : Nat × Email) (m : String) :
    msgCount (store ++ [x]) m =
      msgCount store m + (if x.2.messageId = m then 1 else 0) := by
  by_cases h : x.2.messageId = m <;>
    simp [msgCount, List.filter_append, h]

theorem findEmailByMessageId_eq_none_iff (store : Store) (m : String) :
    findEmailByMessageId store m = none ↔ msgCount store m = 0 := by
  simp only [findEmailByMessageId, msgCount, List.find?_eq_none, List.length_eq_zero,
    List.filter_eq_nil_iff]

theorem keyCount_le_msgCount (store : Store) (accountId messageId : String) :
    keyCount store accountId messageId ≤ msgCount store messageId := by
  unfold keyCount msgCount
  induction store.map Prod.snd with
  | nil => simp
  | cons e t ih =>
    by_cases ha : e.accountId == accountId <;>
      by_cases hm : e.messageId == messageId <;>
        simp [ha, hm, List.filter] <;> omega

theorem processEmail_store_shape (accountId : String) (parsedEmail : ParsedEmail)
    (days : Nat) (now : Int)
    (providerResult : Except ProviderError AICategory) (ragResult : Except RagError String)
    (store : Store) :
    (processEmail accountId parsedEmail days now providerResult ragResult store).1 = store ∨
      (msgCount store parsedEmail.messageId = 0 ∧
        ∃ rec, rec.messageId = parsedEmail.messageId ∧
          (processEmail accountId parsedEmail days now providerResult ragResult store).1 =
            store ++ [(store.length, rec)]) := by
  cases hf : findEmailByMessageId store parsedEmail.messageId with
  | some e =>
    left
    rw [processEmail_of_found accountId days now providerResult ragResult hf]
  | none =>
    by_cases hd : parsedEmail.date < now - 730
    · left
      rw [processEmail_of_old accountId days providerResult ragResult hf hd]
    · right
      refine ⟨(findEmailByMessageId_eq_none_iff store parsedEmail.messageId).mp hf, ?_⟩
      exact ⟨_, rfl, by rw [processEmail_of_new accountId days providerResult ragResult hf hd]⟩

theorem msgCount_processEmail_le (accountId : String) (parsedEmail : ParsedEmail)
    (days : Nat) (now : Int)
    (providerResult : Except ProviderError AICategory) (ragResult : Except RagError String)
    (store : Store) (m : String) :
    msgCount (processEmail accountId parsedEmail days now providerResult ragResult store).1 m ≤
      max (msgCount store m) 1 := by
  rcases processEmail_store_shape accountId parsedEmail days now providerResult ragResult store with
    h | ⟨hzero, rec, hrec, h⟩
  · rw [h]; exact le_max_left _ _
  · rw [h, msgCount_append]
    by_cases hm : rec.messageId = m
    · have h0 : msgCount store m = 0 := by
        rw [← hm, hrec]
        exact hzero
      simp [hm, h0]
    · simp [hm]

theorem uniqueByMessageId_processEmail (accountId : String) (parsedEmail : ParsedEmail)
    (days : Nat) (now : Int)
    (providerResult : Except ProviderError AICategory) (ragResult : Except RagError String)
    (store : Store) (h : UniqueByMessageId store) :
    UniqueByMessageId
      (processEmail accountId parsedEmail days now providerResult ragResult store).1 := by
  intro m
  have := msgCount_processEmail_le accountId parsedEmail days now providerResult ragResult store m
  have hm := h m
  omega

theorem uniqueByMessageId_runIngestion (jobs : List IngestJob) (store : Store)
    (h : UniqueByMessageId store) :
    UniqueByMessageId (runIngestion jobs store) := by
  induction jobs generalizing store with
  | nil => exact h
  | cons j js ih =>
    exact ih _ (uniqueByMessageId_processEmail j.accountId j.parsedEmail j.days j.now
      j.providerResult j.ragResult store h)

theorem processEmail_skip_of_mem {store : Store} {parsedEmail : ParsedEmail} {e : Email}
    (accountId : String) (days : Nat) (now : Int)
    (providerResult : Except ProviderError AICategory) (ragResult : Except RagError String)
    (hmem : e ∈ store.map Prod.snd) (hm : e.messageId = parsedEmail.messageId) :
    processEmail accountId parsedEmail days now providerResult ragResult store =
      (store, [Effect.lookupByMessageId parsedEmail.messageId]) := by
  cases hf : findEmailByMessageId store parsedEmail.messageId with
  | some x => exact processEmail_of_found accountId days now providerResult ragResult hf
  | none =>
    exfalso
    simp only [findEmailByMessageId] at hf
    rw [List.find?_eq_none] at hf
    exact absurd (by simp [hm]) (hf e hmem)

theorem processEmail_preserves_absent (accountId : String) (parsedEmail : ParsedEmail)
    (days : Nat) (now : Int)
    (providerResult : Except ProviderError AICategory) (ragResult : Except RagError String)
    (store : Store) (m : String)
    (h0 : msgCount store m = 0) (hne : parsedEmail.messageId ≠ m) :
    msgCount (processEmail accountId parsedEmail days now providerResult ragResult store).1 m
      = 0 := by
  rcases processEmail_store_shape accountId parsedEmail days now providerResult ragResult store with
    h | ⟨_, rec, hrec, h⟩
  · rw [h]; exact h0
  · rw [h, msgCount_append]
    have : ¬ rec.messageId = m := by rw [hrec]; exact hne
    simp [this, h0]

theorem forceEmailSync_store_eq (accountId : String) (results : List ParsedEmail)
    (days : Nat) (now : Int)
    (providerResult : String → Except ProviderError AICategory)
    (ragResult : String → Except RagError String) (store : Store) :
    (forceEmailSync accountId results days now providerResult ragResult store).store =
      (results.take 10).foldl
        (fun st p =>
          (processEmail accountId p days now (providerResult p.messageId)
            (ragResult p.messageId) st).1)
        store := rfl

theorem foldl_processEmail_prefix (accountId : String) (batch : List ParsedEmail)
    (days : Nat) (now : Int)
    (providerResult : String → Except ProviderError AICategory)
    (ragResult : String → Except RagError String) (store : Store) :
    ∃ added,
      batch.foldl
        (fun st p =>
          (processEmail accountId p days now (providerResult p.messageId)
            (ragResult p.messageId) st).1)
        store = store ++ added := by
  induction batch generalizing store with
  | nil => exact ⟨[], by simp⟩
  | cons p ps ih =>
    rcases processEmail_store_shape accountId p days now (providerResult p.messageId)
      (ragResult p.messageId) store with h | ⟨_, rec, _, h⟩
    · simpa [List.foldl_cons, h] using ih store
    · obtain ⟨added, hadded⟩ := ih (store ++ [(store.length, rec)])
      exact ⟨(store.length, rec) :: added, by
        simp only [List.foldl_cons, h]
        simpa using hadded⟩

theorem foldl_processEmail_absent (accountId : String) (batch : List ParsedEmail)
    (days : Nat) (now : Int)
    (providerResult : String → Except ProviderError AICategory)
    (ragResult : String → Except RagError String) (store : Store) (m : String)
    (h0 : msgCount store m = 0) (hne : ∀ p ∈ batch, p.messageId ≠ m) :
    msgCount
      (batch.foldl
        (fun st p =>
          (processEmail accountId p days now (providerResult p.messageId)
            (ragResult p.messageId) st).1)
        store) m = 0 := by
  induction batch generalizing store with
  | nil => exact h0
  | cons p ps ih =>
    rw [List.foldl_cons]
    exact ih _
      (processEmail_preserves_absent accountId p days now (providerResult p.messageId)
        (ragResult p.messageId) store m h0 (hne p (by simp)))
      (fun q hq => hne q (by simp [hq]))

theorem findEmailById_updateEmail_self (store : Store) (id : Nat) (u : EmailUpdate)
    (now : Int) :
    findEmailById (updateEmail store id u now) id =
      (findEmailById store id).map (fun e => applyUpdate e u now) := by
  induction store with
  | nil => rfl
  | cons hd tl ih =>
    by_cases h : hd.1 = id
    · simp [updateEmail, findEmailById, List.find?, h]
    · have hb : (hd.1 == id) = false := by simpa using h
      simp only [updateEmail, List.map_cons, if_neg h] at *
      simp only [findEmailById, List.find?, hb] at *
      exact ih

theorem findEmailById_updateEmail_other (store : Store) (id j : Nat) (u : EmailUpdate)
    (now : Int) (h : j ≠ id) :
    findEmailById (updateEmail store id u now) j = findEmailById store j := by
  induction store with
  | nil => rfl
  | cons hd tl ih =>
    by_cases hh : hd.1 = id
    · have hb : (hd.1 == j) = false := by simp [hh]; omega
      simp only [updateEmail, List.map_cons, if_pos hh] at *
      simp only [findEmailById, List.find?, hb] at *
      exact ih
    · by_cases hj : hd.1 = j
      · have hb : (hd.1 == j) = true := by simpa using hj
        simp only [updateEmail, List.map_cons, if_neg hh]
        simp [findEmailById, List.find?, hb]
      · have hb : (hd.1 == j) = false := by simpa using hj
        simp only [updateEmail, List.map_cons, if_neg hh] at *
        simp only [findEmailById, List.find?, hb] at *
        exact ih

/-! Claim theorems. -/

/-- C1: over any number of sequential ingestion runs with arbitrarily
overlapping candidate sets, at most one indexed record exists per natural
key (accountId, messageId); a message whose natural key is already
present in the index is skipped — the store is returned unchanged and
the only effect is the dedup lookup, so no enrichment happens for it —
and the dedup existence check is always the first effect of
`processEmail`, before any enrichment work. -/
theorem ingestion_natural_key_unique :
    (∀ (jobs : List IngestJob) (store : Store) (a m : String),
      UniqueByMessageId store → keyCount (runIngestion jobs store) a m ≤ 1)
  ∧ (∀ (a : String) (p : ParsedEmail) (days : Nat) (now : Int)
      (pr : Except ProviderError AICategory) (rg : Except RagError String)
      (store : Store) (e : Email),
      e ∈ store.map Prod.snd → e.accountId = a → e.messageId = p.messageId →
      processEmail a p days now pr rg store =
        (store, [Effect.lookupByMessageId p.messageId]))
  ∧ (∀ (a : String) (p : ParsedEmail) (days : Nat) (now : Int)
      (pr : Except ProviderError AICategory) (rg : Except RagError String)
      (store : Store),
      ((processEmail a p days now pr rg store).2).head? =
        some (Effect.lookupByMessageId p.messageId)) := by
  refine ⟨?_, ?_, ?_⟩
  · intro jobs store a m h
    exact le_trans (keyCount_le_msgCount _ a m)
      (uniqueByMessageId_runIngestion jobs store h m)
  · intro a p days now pr rg store e hmem _ hm
    exact processEmail_skip_of_mem a days now pr rg hmem hm
  · intro a p days now pr rg store
    cases hf : findEmailByMessageId store p.messageId with
    | some e =>
      rw [processEmail_of_found a days now pr rg hf]
      rfl
    | none =>
      by_cases hd : p.date < now - 730
      · rw [processEmail_of_old a days pr rg hf hd]
        rfl
      · rw [processEmail_of_new a days pr rg hf hd]
        rfl

/-- Concrete data for the C1 witness: one fresh message ingested into an
empty index. -/
def witnessParsedC1 : ParsedEmail :=
  { messageId := "m", subject := "s", fromAddr := "f", toAddrs := none
    cc := none, bcc := none, date := 1000, body := "b", htmlBody := none }

/-- Witness for C1 at a concrete input: the empty index is unique by
message id, and after one ingestion run the natural key ("a", "m") has at
most one record. -/
theorem ingestion_natural_key_unique_witness :
    UniqueByMessageId ([] : Store) ∧
      keyCount
        (runIngestion
          [{ accountId := "a", parsedEmail := witnessParsedC1, days := 7, now := 1000
             providerResult := Except.error ProviderError.timeout
             ragResult := Except.error RagError.ragFailure }]
          []) "a" "m" ≤ 1 := by
  have h : UniqueByMessageId ([] : Store) := by
    intro m
    simp [msgCount]
  exact ⟨h, ingestion_natural_key_unique.1 _ [] "a" "m" h⟩

/-- C10: the ingestion duplicate check matches on the message identifier
alone, not scoped to the account — a message indexed under one account is
skipped, with no record created, when the same messageId is seen while
ingesting any other account — and consequently at most one record exists
system-wide per messageId across all accounts. -/
theorem dedup_messageId_global :
    (∀ (a1 a2 : String) (p : ParsedEmail) (days : Nat) (now : Int)
      (pr : Except ProviderError AICategory) (rg : Except RagError String)
      (store : Store) (e : Email),
      e ∈ store.map Prod.snd → e.accountId = a1 → e.messageId = p.messageId →
      processEmail a2 p days now pr rg store =
        (store, [Effect.lookupByMessageId p.messageId]))
  ∧ (∀ (jobs : List IngestJob) (store : Store) (m : String),
      UniqueByMessageId store → msgCount (runIngestion jobs store) m ≤ 1) := by
  refine ⟨?_, ?_⟩
  · intro a1 a2 p days now pr rg store e hmem _ hm
    exact processEmail_skip_of_mem a2 days now pr rg hmem hm
  · intro jobs store m h
    exact uniqueByMessageId_runIngestion jobs store h m

/-- A record already indexed under account "a1", for the C10 witness. -/
def witnessRecordC10 : Email :=
  { accountId := "a1", messageId := "m", subject := "s", fromAddr := "f"
    toAddrs := [], cc := none, bcc := none, date := 1000, body := "b"
    htmlBody := none, folder := "INBOX", isRead := false, isFlagged := false
    category := none, aiCategory := none, aiConfidence := none
    suggestedReply := none, createdAt := 1000, updatedAt := 1000 }

/-- Witness for C10 at a concrete input: a message with the same
messageId as a record stored under account "a1" is skipped when ingested
for the different account "a2". -/
theorem dedup_messageId_global_witness :
    witnessRecordC10 ∈ ([(0, witnessRecordC10)] : Store).map Prod.snd ∧
      processEmail "a2" witnessParsedC1 7 1000 (Except.error ProviderError.timeout)
        (Except.error RagError.ragFailure) [(0, witnessRecordC10)] =
        ([(0, witnessRecordC10)], [Effect.lookupByMessageId "m"]) := by
  refine ⟨by simp, ?_⟩
  exact dedup_messageId_global.1 "a1" "a2" witnessParsedC1 7 1000
    (Except.error ProviderError.timeout) (Except.error RagError.ragFailure)
    [(0, witnessRecordC10)] witnessRecordC10 (by simp) rfl rfl

/-- C2 counterexample: with one fetch run already in flight for a
connected account (`inFlightRuns = 1`), a new-mail trigger starts a
second run immediately — `inFlightRuns` becomes 2, so the new run runs
concurrently with the in-flight one instead of being coalesced into a
pending dirty flag — and a second trigger during the same in-flight run
starts yet another run (`totalRuns` goes from 1 to 3), so two extra runs
execute, not exactly one. -/
theorem coalescing_counterexample :
    (handleNewMail { connected := true, isIdle := true, inFlightRuns := 1, totalRuns := 1 }).inFlightRuns = 2 ∧
      (handleNewMail (handleNewMail
        { connected := true, isIdle := true, inFlightRuns := 1, totalRuns := 1 })).totalRuns = 3 := by
  constructor
  · rfl
  · rfl

/-- C2 amended: `handleNewMail` holds no coalescing state at all — when
the account is connected, every new-mail trigger immediately starts one
more fetch run, whatever the number of runs already in flight (and when
it is not connected the trigger is dropped entirely, starting no run
then or later). -/
theorem handleNewMail_no_coalescing (s : AccountSyncState) :
    (s.connected = true →
      handleNewMail s =
        { connected := s.connected, isIdle := false
          inFlightRuns := s.inFlightRuns + 1, totalRuns := s.totalRuns + 1 })
  ∧ (s.connected = false → handleNewMail s = s) := by
  constructor
  · intro h
    simp [handleNewMail, h]
  · intro h
    simp [handleNewMail, h]

/-- Witness for the amended C2 at a concrete state: with five runs in
flight, a trigger starts a sixth. -/
theorem handleNewMail_no_coalescing_witness :
    ({ connected := true, isIdle := true, inFlightRuns := 5, totalRuns := 5 } :
        AccountSyncState).connected = true ∧
      handleNewMail { connected := true, isIdle := true, inFlightRuns := 5, totalRuns := 5 } =
        { connected := true, isIdle := false, inFlightRuns := 6, totalRuns := 6 } := by
  refine ⟨rfl, ?_⟩
  exact (handleNewMail_no_coalescing
    { connected := true, isIdle := true, inFlightRuns := 5, totalRuns := 5 }).1 rfl

/-- A message one hundred days old at `now = 1000`, fresh in the index,
used against C3. -/
def oldParsedC3 : ParsedEmail :=
  { messageId := "m-old", subject := "s", fromAddr := "f", toAddrs := none
    cc := none, bcc := none, date := 900, body := "b", htmlBody := none }

/-- C3 counterexample: ingestion is called with a lookback of `days = 7`,
the message is 100 days old — far outside the caller-supplied window —
yet `processEmail` still creates a record for it, because the date filter
uses the hardcoded 730-day horizon and never reads `days`. -/
theorem lookback_ignores_days_counterexample :
    (7 : Int) < 1000 - oldParsedC3.date ∧
      ((processEmail "a" oldParsedC3 7 1000
          (Except.ok { category := EmailCategory.not_interested, confidence := 9/10, reasoning := "r" })
          (Except.error RagError.ragFailure) []).1).length = 1 := by
  constructor
  · decide
  · rfl

/-- C3 amended: the ingestion cutoff is the fixed 730-day horizon,
independent of the caller-supplied `days` parameter (the result of
`processEmail` does not depend on `days` at all); for a fresh message a
record is created exactly when the message is no older than 730 days, so
a message dated exactly at the 730-day horizon is ingested and one dated
one day past it is excluded. -/
theorem lookback_fixed_730 (a : String) (p : ParsedEmail) (days : Nat) (now : Int)
    (pr : Except ProviderError AICategory) (rg : Except RagError String)
    (store : Store) (h : findEmailByMessageId store p.messageId = none) :
    (∀ days1 days2 : Nat,
      processEmail a p days1 now pr rg store = processEmail a p days2 now pr rg store)
  ∧ (((processEmail a p days now pr rg store).1).length = store.length + 1 ↔
      now - 730 ≤ p.date)
  ∧ (p.date < now - 730 → (processEmail a p days now pr rg store).1 = store) := by
  refine ⟨fun days1 days2 => rfl, ?_, ?_⟩
  · by_cases hd : p.date < now - 730
    · rw [processEmail_of_old a days pr rg h hd]
      constructor
      · intro hl
        exfalso
        have hl2 : store.length = store.length + 1 := hl
        omega
      · intro hle
        exfalso
        omega
    · rw [processEmail_of_new a days pr rg h hd]
      constructor
      · intro _
        omega
      · intro _
        simp
  · intro hd
    rw [processEmail_of_old a days pr rg h hd]

/-- A fresh in-window message for the C3 witness. -/
def freshParsedC3 : ParsedEmail :=
  { messageId := "m-fresh", subject := "s", fromAddr := "f", toAddrs := none
    cc := none, bcc := none, date := 1000, body := "b", htmlBody := none }

/-- Witness for the amended C3 at a concrete input: a fresh message dated
`now` is ingested into the empty index, matching the 730-day criterion. -/
theorem lookback_fixed_730_witness :
    findEmailByMessageId ([] : Store) freshParsedC3.messageId = none ∧
      (((processEmail "a" freshParsedC3 7 1000 (Except.error ProviderError.timeout)
          (Except.error RagError.ragFailure) []).1).length = ([] : Store).length + 1 ↔
        (1000 : Int) - 730 ≤ freshParsedC3.date) := by
  refine ⟨rfl, ?_⟩
  exact (lookback_fixed_730 "a" freshParsedC3 7 1000 (Except.error ProviderError.timeout)
    (Except.error RagError.ragFailure) [] rfl).2.1

/-- The i-th candidate message of the C4 scenario: message id `m<i>`,
dated inside every lookback window under discussion. -/
def scenarioParsed (i : Nat) : ParsedEmail :=
  { messageId := String.append "m" (toString i), subject := "s", fromAddr := "f"
    toAddrs := none, cc := none, bcc := none, date := 1000, body := "b"
    htmlBody := none }

/-- The i-th already-indexed record of the C4 scenario, stored under the
same account with message id `m<i>`. -/
def scenarioIndexed (i : Nat) : Email :=
  { accountId := "acct", messageId := String.append "m" (toString i)
    subject := "s", fromAddr := "f", toAddrs := [], cc := none, bcc := none
    date := 1000, body := "b", htmlBody := none, folder := "INBOX"
    isRead := false, isFlagged := false, category := none, aiCategory := none
    aiConfidence := none, suggestedReply := none, createdAt := 1000
    updatedAt := 1000 }

/-- The C4 scenario index: messages m0, m1, m2 already indexed. -/
def scenarioStore : Store :=
  (List.range 3).map (fun i => (i, scenarioIndexed i))

/-- The C4 scenario candidate list: 15 in-window messages m0 .. m14. -/
def scenarioResults : List ParsedEmail :=
  (List.range 15).map scenarioParsed

/-- The C4 scenario sync run over the 15 candidates. -/
def scenarioRun : SyncResult :=
  forceEmailSync "acct" scenarioResults 7 1000
    (fun _ => Except.ok
      { category := EmailCategory.not_interested, confidence := 9/10, reasoning := "r" })
    (fun _ => Except.error RagError.ragFailure)
    scenarioStore

/-- C4 counterexample: in the scenario of the spec — 15 in-window candidates of
which 3 (m0, m1, m2) are already indexed — the sync run processes only the
first 10 candidates (`results.slice(0, 10)` with no loop over later
chunks): it reports `processedCount = 10`, creates 7 new records rather
than the claimed 12, and never processes candidate m10 at all, so not all
in-window candidates are processed by the run. -/
theorem sync_truncates_counterexample :
    scenarioResults.length = 15 ∧
      scenarioRun.processedCount = 10 ∧
      scenarioRun.store.length = scenarioStore.length + 7 ∧
      scenarioRun.store.length - scenarioStore.length ≠ 12 ∧
      findEmailByMessageId scenarioRun.store "m10" = none := by
  refine ⟨rfl, rfl, rfl, ?_, rfl⟩
  decide

/-- C4 amended: a sync run truncates the candidate list to its first 10
identifiers and processes exactly those, sequentially, in one batch:
`processedCount` is `min 10 (number of candidates)`; every pre-existing
record is untouched (the prior index is a prefix of the new one); and a
message id that is absent from the index and not among the first 10
candidates is still absent after the run — candidates beyond the first
10 are not processed by the run. -/
theorem sync_first_ten_only (a : String) (results : List ParsedEmail) (days : Nat)
    (now : Int) (provider : String → Except ProviderError AICategory)
    (rag : String → Except RagError String) (store : Store) :
    (forceEmailSync a results days now provider rag store).processedCount =
        min 10 results.length
  ∧ (∃ added, (forceEmailSync a results days now provider rag store).store =
        store ++ added)
  ∧ (∀ m, msgCount store m = 0 → (∀ p ∈ results.take 10, p.messageId ≠ m) →
      findEmailByMessageId
        (forceEmailSync a results days now provider rag store).store m = none) := by
  refine ⟨?_, ?_, ?_⟩
  · simp [forceEmailSync]
  · rw [forceEmailSync_store_eq]
    exact foldl_processEmail_prefix a (results.take 10) days now provider rag store
  · intro m h0 hne
    rw [forceEmailSync_store_eq, findEmailByMessageId_eq_none_iff]
    exact foldl_processEmail_absent a (results.take 10) days now provider rag store m h0 hne

/-- Witness for the amended C4 on the scenario data: m10 is not indexed
by the run because it lies beyond the first 10 candidates. -/
theorem sync_first_ten_only_witness :
    msgCount scenarioStore "m10" = 0 ∧
      findEmailByMessageId scenarioRun.store "m10" = none := by
  refine ⟨rfl, ?_⟩
  exact (sync_first_ten_only "acct" scenarioResults 7 1000
    (fun _ => Except.ok
      { category := EmailCategory.not_interested, confidence := 9/10, reasoning := "r" })
    (fun _ => Except.error RagError.ragFailure)
    scenarioStore).2.2 "m10" rfl (by decide)

/-- C5: on any provider failure (rejected call, timeout, malformed
response) the classify operation never raises — it returns the single
conservative fallback, category spam with confidence 0.5, the same for
every failure — and for a fresh in-window message `processEmail` still
creates and indexes the record carrying the fallback category and a
confidence below the low threshold 3/5. -/
theorem enrichment_failure_fallback (err : ProviderError) (a : String)
    (p : ParsedEmail) (days : Nat) (now : Int) (rg : Except RagError String)
    (store : Store)
    (h : findEmailByMessageId store p.messageId = none)
    (hd : ¬ p.date < now - 730) :
    categorizeEmail (Except.error err) = fallbackCategory
  ∧ fallbackCategory.category = EmailCategory.spam
  ∧ fallbackCategory.confidence = 1/2
  ∧ fallbackCategory.confidence < 3/5
  ∧ ∃ rec, (processEmail a p days now (Except.error err) rg store).1 =
        store ++ [(store.length, rec)]
      ∧ rec.category = some EmailCategory.spam
      ∧ rec.aiConfidence = some (1/2 : ℚ) := by
  refine ⟨rfl, rfl, rfl, by norm_num [fallbackCategory], ?_⟩
  rw [processEmail_of_new a days (Except.error err) rg h hd]
  exact ⟨_, rfl, rfl, rfl⟩

/-- A fresh in-window message for the C5 witness. -/
def freshParsedC5 : ParsedEmail :=
  { messageId := "m-c5", subject := "s", fromAddr := "f", toAddrs := none
    cc := none, bcc := none, date := 1000, body := "b", htmlBody := none }

/-- Witness for C5 at a concrete input: a timed-out classification of a
fresh message still yields an indexed record with the spam fallback and
confidence 0.5. -/
theorem enrichment_failure_fallback_witness :
    findEmailByMessageId ([] : Store) freshParsedC5.messageId = none ∧
      ¬ freshParsedC5.date < (1000 : Int) - 730 ∧
      ∃ rec, (processEmail "a" freshParsedC5 7 1000 (Except.error ProviderError.timeout)
          (Except.error RagError.ragFailure) []).1 =
            [] ++ [(List.length ([] : Store), rec)]
        ∧ rec.category = some EmailCategory.spam
        ∧ rec.aiConfidence = some (1/2 : ℚ) := by
  refine ⟨rfl, by decide, ?_⟩
  exact (enrichment_failure_fallback ProviderError.timeout "a" freshParsedC5 7 1000
    (Except.error RagError.ragFailure) [] rfl (by decide)).2.2.2.2

/-- C6: for a fresh in-window message, exactly when the assigned category
is "interested" does the pipeline request a reply and dispatch
notifications: the interested effect trace carries one reply request,
then the index upsert, then exactly one Slack and one webhook dispatch
attempt (the upsert strictly precedes both dispatch attempts); any other
category — spam included — yields the trace with no reply request and
zero dispatch attempts; the suggestedReply of the record is the RAG reply
exactly in the interested case with a successful RAG call, and is absent
for every non-interested category. -/
theorem interested_gating (a : String) (p : ParsedEmail) (days : Nat) (now : Int)
    (pr : Except ProviderError AICategory) (rg : Except RagError String)
    (store : Store)
    (h : findEmailByMessageId store p.messageId = none)
    (hd : ¬ p.date < now - 730) :
    ((categorizeEmail pr).category = EmailCategory.interested →
      (processEmail a p days now pr rg store).2 =
        [Effect.lookupByMessageId p.messageId, Effect.classify p.messageId,
         Effect.generateReply p.messageId, Effect.indexRecord p.messageId,
         Effect.slackNotify p.messageId, Effect.webhookNotify p.messageId])
  ∧ ((categorizeEmail pr).category ≠ EmailCategory.interested →
      (processEmail a p days now pr rg store).2 =
        [Effect.lookupByMessageId p.messageId, Effect.classify p.messageId,
         Effect.indexRecord p.messageId])
  ∧ (∀ r, (categorizeEmail pr).category = EmailCategory.interested →
      rg = Except.ok r →
      ∃ rec, (processEmail a p days now pr rg store).1 = store ++ [(store.length, rec)]
        ∧ rec.suggestedReply = some r)
  ∧ ((categorizeEmail pr).category ≠ EmailCategory.interested →
      ∃ rec, (processEmail a p days now pr rg store).1 = store ++ [(store.length, rec)]
        ∧ rec.suggestedReply = none) := by
  refine ⟨?_, ?_, ?_, ?_⟩
  · intro hc
    rw [processEmail_of_new a days pr rg h hd]
    simp [ingestTrace, hc]
  · intro hc
    rw [processEmail_of_new a days pr rg h hd]
    simp [ingestTrace, hc]
  · intro r hc hr
    rw [processEmail_of_new a days pr rg h hd]
    refine ⟨_, rfl, ?_⟩
    simp [ingestedRecord, suggestedReplyFor, hc, hr]
  · intro hc
    rw [processEmail_of_new a days pr rg h hd]
    refine ⟨_, rfl, ?_⟩
    simp [ingestedRecord, suggestedReplyFor, hc]

/-- A fresh in-window message for the C6 witness. -/
def freshParsedC6 : ParsedEmail :=
  { messageId := "m-c6", subject := "s", fromAddr := "f", toAddrs := none
    cc := none, bcc := none, date := 1000, body := "b", htmlBody := none }

/-- Witness for C6 at a concrete input: a message classified interested
with confidence 0.82 produces the reply request, the index upsert, then
exactly one Slack and one webhook dispatch attempt. -/
theorem interested_gating_witness :
    (categorizeEmail (Except.ok
        { category := EmailCategory.interested, confidence := 82/100
          reasoning := "ok" })).category = EmailCategory.interested ∧
      (processEmail "a" freshParsedC6 7 1000
          (Except.ok
            { category := EmailCategory.interested, confidence := 82/100
              reasoning := "ok" })
          (Except.ok "reply") []).2 =
        [Effect.lookupByMessageId "m-c6", Effect.classify "m-c6",
         Effect.generateReply "m-c6", Effect.indexRecord "m-c6",
         Effect.slackNotify "m-c6", Effect.webhookNotify "m-c6"] := by
  refine ⟨rfl, ?_⟩
  exact (interested_gating "a" freshParsedC6 7 1000
    (Except.ok
      { category := EmailCategory.interested, confidence := 82/100, reasoning := "ok" })
    (Except.ok "reply") [] rfl (by decide)).1 rfl

/-- C7: notification delivery is fire-and-forget: neither notify
operation ever returns an error to the calling pipeline, whatever the
delivery outcome (thrown errors are logged and swallowed, a non-ok or
non-2xx response is only logged); with no Slack token configured the
Slack call makes no delivery attempt and raises nothing, and with no
webhook URL configured (the constructor placeholder) the webhook call
likewise makes no delivery attempt and raises nothing. -/
theorem notifications_never_raise :
    (∀ (slackToken : Option String) (delivery : Except DeliveryError Bool),
      ∃ log, sendSlackNotification slackToken delivery = Except.ok log)
  ∧ (∀ (url : String) (delivery : Except DeliveryError Nat),
      ∃ log, sendWebhook url delivery = Except.ok log)
  ∧ (∀ delivery, sendSlackNotification none delivery =
      Except.ok { attempts := 0, errorsLogged := 0, warningsLogged := 1 })
  ∧ (∀ delivery, sendWebhook (webhookUrlOfEnv none) delivery =
      Except.ok { attempts := 0, errorsLogged := 0, warningsLogged := 1 })
  ∧ (∀ (slackToken : String) (e : DeliveryError),
      sendSlackNotification (some slackToken) (Except.error e) =
        Except.ok { attempts := 1, errorsLogged := 1, warningsLogged := 0 }) := by
  refine ⟨?_, ?_, fun _ => rfl, fun _ => rfl, fun _ _ => rfl⟩
  · intro slackToken delivery
    cases slackToken with
    | none => exact ⟨_, rfl⟩
    | some t =>
      cases delivery with
      | ok b => cases b <;> exact ⟨_, rfl⟩
      | error e => exact ⟨_, rfl⟩
  · intro url delivery
    cases hcond : (url.isEmpty || hasSubstr url "your-unique-url") with
    | true =>
      exact ⟨{ attempts := 0, errorsLogged := 0, warningsLogged := 1 },
        by simp [sendWebhook, hcond]⟩
    | false =>
      cases delivery with
      | ok status =>
        by_cases hs : 200 ≤ status ∧ status < 300
        · exact ⟨{ attempts := 1, errorsLogged := 0, warningsLogged := 0 },
            by simp [sendWebhook, hcond, hs]⟩
        · exact ⟨{ attempts := 1, errorsLogged := 1, warningsLogged := 0 },
            by simp [sendWebhook, hcond, hs]⟩
      | error e =>
        exact ⟨{ attempts := 1, errorsLogged := 1, warningsLogged := 0 },
          by simp [sendWebhook, hcond]⟩

/-- The filters of a pure full-text search: relevance query "hello",
default paging, no other filters. -/
def queryFiltersC8 : EmailSearchFilters :=
  { accountId := none, folder := none, category := none, dateFrom := none
    dateTo := none, isRead := none, query := some "hello", limit := 20
    offset := 0 }

/-- C8 counterexample: with a full-text relevance query present the
claimed behaviour is relevance ranking with a recency boost, but the
request the code builds still sorts purely newest-first by date. -/
theorem search_sort_counterexample :
    strTruthy queryFiltersC8.query = true ∧
      (buildSearchBody queryFiltersC8).sort = [SortOrder.byDateDesc] ∧
      specSortOrder queryFiltersC8 = [SortOrder.byRelevanceWithRecencyBoost] ∧
      (buildSearchBody queryFiltersC8).sort ≠ specSortOrder queryFiltersC8 := by
  refine ⟨rfl, rfl, rfl, ?_⟩
  decide

/-- C8 amended: every search request sorts newest-first by message
timestamp, including when a full-text relevance query is present (the
query only contributes boosted match clauses for filtering, not a
relevance sort); pagination is offset-based, with `from := offset` and
`size := limit`. -/
theorem search_always_date_desc (filters : EmailSearchFilters) :
    (buildSearchBody filters).sort = [SortOrder.byDateDesc]
  ∧ (buildSearchBody filters).fromOffset = filters.offset
  ∧ (buildSearchBody filters).size = filters.limit :=
  ⟨rfl, rfl, rfl⟩

/-- C9: a partial-field update preserves every stored field the update
doc does not name (the doc the source sends is the given partial
fields plus `updatedAt`, which it always rewrites): reading the record
back yields the original value of each unnamed field, each named field
takes its new value, and documents with any other id read back
unchanged. -/
theorem update_preserves_untouched (store : Store) (id : Nat) (u : EmailUpdate)
    (now : Int) (e : Email) (h : findEmailById store id = some e) :
    ∃ e2, findEmailById (updateEmail store id u now) id = some e2
      ∧ (u.accountId = none → e2.accountId = e.accountId)
      ∧ (u.messageId = none → e2.messageId = e.messageId)
      ∧ (u.subject = none → e2.subject = e.subject)
      ∧ (u.fromAddr = none → e2.fromAddr = e.fromAddr)
      ∧ (u.toAddrs = none → e2.toAddrs = e.toAddrs)
      ∧ (u.cc = none → e2.cc = e.cc)
      ∧ (u.bcc = none → e2.bcc = e.bcc)
      ∧ (u.date = none → e2.date = e.date)
      ∧ (u.body = none → e2.body = e.body)
      ∧ (u.htmlBody = none → e2.htmlBody = e.htmlBody)
      ∧ (u.folder = none → e2.folder = e.folder)
      ∧ (u.isRead = none → e2.isRead = e.isRead)
      ∧ (u.isFlagged = none → e2.isFlagged = e.isFlagged)
      ∧ (u.category = none → e2.category = e.category)
      ∧ (u.aiCategory = none → e2.aiCategory = e.aiCategory)
      ∧ (u.aiConfidence = none → e2.aiConfidence = e.aiConfidence)
      ∧ (u.suggestedReply = none → e2.suggestedReply = e.suggestedReply)
      ∧ (u.createdAt = none → e2.createdAt = e.createdAt)
      ∧ (∀ v, u.category = some v → e2.category = v)
      ∧ (∀ j, j ≠ id →
          findEmailById (updateEmail store id u now) j = findEmailById store j) := by
  have hmain : findEmailById (updateEmail store id u now) id =
      some (applyUpdate e u now) := by
    rw [findEmailById_updateEmail_self, h]
    rfl
  refine ⟨applyUpdate e u now, hmain, ?_, ?_, ?_, ?_, ?_, ?_, ?_, ?_, ?_, ?_, ?_,
    ?_, ?_, ?_, ?_, ?_, ?_, ?_, ?_, ?_⟩
  all_goals first
    | exact fun j hj => findEmailById_updateEmail_other store id j u now hj
    | exact fun v hv => by simp [applyUpdate, hv]
    | exact fun hf => by simp [applyUpdate, hf]

/-- A stored record for the C9 witness. -/
def recordC9 : Email :=
  { accountId := "acct", messageId := "m-c9", subject := "important offer"
    fromAddr := "alice", toAddrs := ["bob"], cc := none, bcc := none
    date := 1000, body := "text", htmlBody := none, folder := "INBOX"
    isRead := false, isFlagged := false, category := none, aiCategory := none
    aiConfidence := none, suggestedReply := none, createdAt := 1000
    updatedAt := 1000 }

/-- An update naming only the category field. -/
def catUpdateC9 : EmailUpdate :=
  { EmailUpdate.empty with category := some (some EmailCategory.interested) }

/-- Witness for C9 at a concrete input: updating only the category keeps
the subject (an untouched field) exactly, and the new category value is
applied. -/
theorem update_preserves_untouched_witness :
    findEmailById [(0, recordC9)] 0 = some recordC9 ∧
      ∃ e2, findEmailById (updateEmail [(0, recordC9)] 0 catUpdateC9 2000) 0 = some e2
        ∧ e2.subject = recordC9.subject := by
  refine ⟨rfl, ?_⟩
  obtain ⟨e2, hfind, hrest⟩ :=
    update_preserves_untouched [(0, recordC9)] 0 catUpdateC9 2000 recordC9 rfl
  exact ⟨e2, hfind, hrest.2.2.1 rfl⟩

end Onebox
